import Mathlib

/-!
# TgVoipWebrtc `Manager.cpp`: worker-thread registry and session coordinator

A shallow embedding of `submodules/TgVoipWebrtc/Impl/Manager.cpp`.

* The function-local statics of `makeNetworkThread` / `getNetworkThread` /
  `makeMediaThread` / `getMediaThread` are the fields of `Statics`.
* Closures handed to `rtc::Thread` and to `ThreadLocalObject::perform` are
  defunctionalised: one constructor per lambda of the source.
* Everything observable (observer calls, closures handed to a cell, calls made on
  an actor) is appended to one chronological log, tagged with the thread that
  ran it.
-/

namespace TgVoipWebrtc

/-! ## Threads and the worker-thread registry (Manager.cpp lines 7-31) -/

/-- An `rtc::Thread *`. `created n` is the n-th thread object returned by
`rtc::Thread::Create` / `CreateWithSocketServer` in this process; `external n` is a
thread owned by the caller of `Manager`. -/
inductive ThreadPtr where
  | external (n : Nat)
  | created (n : Nat)
deriving DecidableEq, Repr

/-- The two worker roles. -/
inductive Role where
  | network
  | media
deriving DecidableEq, Repr

/-- Calls made on `rtc::Thread` objects by the registry functions. -/
inductive ThreadEvent where
  | create (t : ThreadPtr) (withSocketServer : Bool)
  | setName (t : ThreadPtr) (name : String)
  | start (t : ThreadPtr)
deriving DecidableEq, Repr

/-- The thread object an event is about. -/
def ThreadEvent.thread : ThreadEvent → ThreadPtr
  | .create t _ => t
  | .setName t _ => t
  | .start t => t

/-- The function-local statics of lines 8, 16, 21 and 29 (`none` = not yet
initialised), the number of thread objects created so far, and the calls made on
thread objects, oldest first. -/
structure Statics where
  makeNetworkThread_value : Option ThreadPtr
  getNetworkThread_value : Option ThreadPtr
  makeMediaThread_value : Option ThreadPtr
  getMediaThread_value : Option ThreadPtr
  created : Nat
  events : List ThreadEvent
deriving DecidableEq, Repr

/-- Process start: no static initialised, no thread created. -/
def Statics.initial : Statics :=
  { makeNetworkThread_value := none, getNetworkThread_value := none,
    makeMediaThread_value := none, getMediaThread_value := none,
    created := 0, events := [] }

/-- Both `rtc::Thread::Create()` and `rtc::Thread::CreateWithSocketServer()`: a
fresh thread object. -/
def createThread (withSocketServer : Bool) (s : Statics) : ThreadPtr × Statics :=
  (.created s.created,
   { s with created := s.created + 1,
            events := s.events ++ [.create (.created s.created) withSocketServer] })

/-- The call `value->SetName(name, nullptr)`. -/
def setName (t : ThreadPtr) (name : String) (s : Statics) : Statics :=
  { s with events := s.events ++ [.setName t name] }

/-- The call `value->Start()`. -/
def startThread (t : ThreadPtr) (s : Statics) : Statics :=
  { s with events := s.events ++ [.start t] }

/-- Lines 7-12. The static `value` is initialised on the first pass only; the two
calls after it run on every pass. -/
def makeNetworkThread (s : Statics) : ThreadPtr × Statics :=
  let r : ThreadPtr × Statics :=
    match s.makeNetworkThread_value with
    | some v => (v, s)
    | none =>
      let c := createThread true s
      (c.1, { c.2 with makeNetworkThread_value := some c.1 })
  (r.1, startThread r.1 (setName r.1 "WebRTC-Network" r.2))

/-- Lines 15-18. -/
def getNetworkThread (s : Statics) : ThreadPtr × Statics :=
  match s.getNetworkThread_value with
  | some v => (v, s)
  | none =>
    let r := makeNetworkThread s
    (r.1, { r.2 with getNetworkThread_value := some r.1 })

/-- Lines 20-25. -/
def makeMediaThread (s : Statics) : ThreadPtr × Statics :=
  let r : ThreadPtr × Statics :=
    match s.makeMediaThread_value with
    | some v => (v, s)
    | none =>
      let c := createThread false s
      (c.1, { c.2 with makeMediaThread_value := some c.1 })
  (r.1, startThread r.1 (setName r.1 "WebRTC-Media" r.2))

/-- Lines 28-31. -/
def getMediaThread (s : Statics) : ThreadPtr × Statics :=
  match s.getMediaThread_value with
  | some v => (v, s)
  | none =>
    let r := makeMediaThread s
    (r.1, { r.2 with getMediaThread_value := some r.1 })

/-- One call of the getter of a role. -/
def getThread : Role → Statics → ThreadPtr × Statics
  | .network => getNetworkThread
  | .media => getMediaThread

/-- The static of the getter of a role. -/
def getValue : Role → Statics → Option ThreadPtr
  | .network, s => s.getNetworkThread_value
  | .media, s => s.getMediaThread_value

/-- The diagnostic name given to the thread of a role. -/
def Role.threadName : Role → String
  | .network => "WebRTC-Network"
  | .media => "WebRTC-Media"

/-- What is done to the thread of a role when it is made: created (with a socket
server for the network role), named, started. -/
def Role.setup (r : Role) (t : ThreadPtr) : List ThreadEvent :=
  [.create t (decide (r = .network)), .setName t r.threadName, .start t]

/-- A sequence of getter calls, in order; returns each call with the handle it
returned, and the final statics. -/
def runCalls : List Role → Statics → List (Role × ThreadPtr) × Statics
  | [], s => ([], s)
  | r :: rs, s =>
    let a := getThread r s
    let b := runCalls rs a.2
    ((r, a.1) :: b.1, b.2)

/-! ## Data carried between the actors -/

/-- The contents of an `rtc::CopyOnWriteBuffer` or of a `std::vector<uint8_t>`. -/
abbrev Bytes := List (Fin 256)

/-- The two values of `TgVoipState` used by Manager.cpp (spelled as in the source). -/
inductive TgVoipState where
  | Estabilished
  | Reconnecting
deriving DecidableEq, Repr

/-- The field of `NetworkManager::State` that Manager.cpp reads. -/
structure NetworkManagerState where
  isReadyToSendData : Bool
deriving DecidableEq, Repr

/-- The key material `TgVoipEncryptionKey`; Manager.cpp reads `isOutgoing` only. -/
structure TgVoipEncryptionKey where
  value : Bytes
  isOutgoing : Bool
deriving DecidableEq, Repr

/-- A `std::shared_ptr<rtc::VideoSinkInterface<webrtc::VideoFrame>>`. -/
structure VideoSink where
  id : Nat
deriving DecidableEq, Repr

/-- The closures handed to the network cell: lines 111-113 and 121-123. -/
inductive NetworkCall where
  | sendPacket (packet : Bytes)
  | receiveSignalingData (data : Bytes)
deriving DecidableEq, Repr

/-- The closures handed to the media cell: lines 73-75, 84-86, 127-129, 133-135. -/
inductive MediaCall where
  | setIsConnected (isConnected : Bool)
  | receivePacket (packet : Bytes)
  | setIncomingVideoOutput (sink : VideoSink)
  | setOutgoingVideoOutput (sink : VideoSink)
deriving DecidableEq, Repr

/-- A call of one of the two observers `_stateUpdated`, `_signalingDataEmitted`. -/
inductive ObserverCall where
  | stateUpdated (state : TgVoipState)
  | signalingDataEmitted (data : Bytes)
deriving DecidableEq, Repr

/-- The closures handed to `thread` by the four actor callbacks: lines 60-76, 79-87,
90-96 and 106-114, each with the value it captured. -/
inductive ThreadTask where
  | connectivity (state : NetworkManagerState)
  | packetReceived (packet : Bytes)
  | signalingData (data : Bytes)
  | packetToSend (packet : Bytes)
deriving DecidableEq, Repr

/-- What can be observed from outside, each with the thread it happened on: an
observer call, a closure handed to a cell, a method called on an actor by its cell. -/
inductive Effect where
  | observer (onThread : ThreadPtr) (call : ObserverCall)
  | performNetwork (onThread : ThreadPtr) (c : NetworkCall)
  | performMedia (onThread : ThreadPtr) (c : MediaCall)
  | networkActor (onThread : ThreadPtr) (c : NetworkCall)
  | mediaActor (onThread : ThreadPtr) (c : MediaCall)
deriving DecidableEq, Repr

/-- The captures of the generator lambda of line 54 (`weakThis` is the manager slot
of the world). -/
structure NetworkGenerator where
  encryptionKey : TgVoipEncryptionKey
  enableP2P : Bool
  thread : ThreadPtr
deriving DecidableEq, Repr

/-- The captures of the generator lambda of line 101. -/
structure MediaGenerator where
  isOutgoing : Bool
  thread : ThreadPtr
deriving DecidableEq, Repr

/-- Modelled from the spec: `ThreadLocalObject<T>` (ThreadLocalObject.h is not among
the sources). The cell stores its target thread and a deferred generator, and keeps
the closures scheduled through `perform` in submission order until its thread runs
them. -/
structure ThreadLocalObject (Gen Call : Type) where
  thread : ThreadPtr
  generator : Gen
  pending : List Call
deriving DecidableEq, Repr

/-- Modelled from the spec: `ThreadLocalObject::perform`, a pure enqueue: the
closure goes to the back of the pending queue and nothing is returned. -/
def ThreadLocalObject.perform {Gen Call : Type} (cell : ThreadLocalObject Gen Call)
    (c : Call) : ThreadLocalObject Gen Call :=
  { cell with pending := cell.pending ++ [c] }

/-- The data members of `Manager` (the two observers are represented by the
`Effect.observer` entries their calls leave in the log). A `none` handle is a null
`std::unique_ptr`. -/
structure Manager where
  _thread : ThreadPtr
  _encryptionKey : TgVoipEncryptionKey
  _enableP2P : Bool
  _networkManager : Option (ThreadLocalObject NetworkGenerator NetworkCall)
  _mediaManager : Option (ThreadLocalObject MediaGenerator MediaCall)
deriving DecidableEq, Repr

/-- The process as far as Manager.cpp is concerned.
* `manager`: the coordinator, as `weakThis.lock()` sees it: `none` once destroyed.
* `callbacks`: the `thread` captured at lines 54 and 101 by the generators and,
  through them, by every actor callback; `none` before `start()`.
* `posted`: closures queued by `PostTask` and not yet run, oldest first, each with
  its target thread.
* `log`: everything observable so far, oldest first. -/
structure World where
  statics : Statics
  manager : Option Manager
  callbacks : Option ThreadPtr
  posted : List (ThreadPtr × ThreadTask)
  log : List Effect
deriving DecidableEq, Repr

/-- Ways an operation can fail to complete. -/
inductive Fault where
  | assertion      -- an `assert(_thread->IsCurrent())` failed
  | nullCell       -- a null `_networkManager` / `_mediaManager` was dereferenced
  | noManager      -- a member function was called on a destroyed Manager
  | nothingToRun   -- the step is not enabled (no such task, closure or callback)
deriving DecidableEq, Repr

/-! ## Manager (Manager.cpp lines 33-136) -/

/-- Lines 33-46: the constructor, run on thread `cur`. -/
def construct (cur thread : ThreadPtr) (encryptionKey : TgVoipEncryptionKey)
    (enableP2P : Bool) (statics : Statics) : Except Fault World :=
  if cur = thread then
    .ok { statics := statics,
          manager := some { _thread := thread, _encryptionKey := encryptionKey,
                            _enableP2P := enableP2P, _networkManager := none,
                            _mediaManager := none },
          callbacks := none, posted := [], log := [] }
  else .error .assertion

/-- Lines 48-50: the destructor, run on thread `cur`. The cells go with the
coordinator. -/
def destroy (cur : ThreadPtr) (w : World) : Except Fault World :=
  match w.manager with
  | none => .error .noManager
  | some m => if cur = m._thread then .ok { w with manager := none } else .error .assertion

/-- The call `strongThis->_networkManager->perform(c)` made on thread `cur`. -/
def performNetwork (cur : ThreadPtr) (strongThis : Manager) (c : NetworkCall) (w : World) :
    Except Fault World :=
  match strongThis._networkManager with
  | none => .error .nullCell
  | some cell =>
    .ok { w with manager := some { strongThis with _networkManager := some (cell.perform c) },
                 log := w.log ++ [.performNetwork cur c] }

/-- The call `strongThis->_mediaManager->perform(c)` made on thread `cur`. -/
def performMedia (cur : ThreadPtr) (strongThis : Manager) (c : MediaCall) (w : World) :
    Except Fault World :=
  match strongThis._mediaManager with
  | none => .error .nullCell
  | some cell =>
    .ok { w with manager := some { strongThis with _mediaManager := some (cell.perform c) },
                 log := w.log ++ [.performMedia cur c] }

/-- Lines 65-70. -/
def mappedState (state : NetworkManagerState) : TgVoipState :=
  if state.isReadyToSendData then .Estabilished else .Reconnecting

/-- The bodies of the four closures handed to `thread`, run on thread `cur`. Each
starts with `weakThis.lock()` and returns at once when that yields null. -/
def runTask (cur : ThreadPtr) : ThreadTask → World → Except Fault World
  | .connectivity state, w =>
    match w.manager with
    | none => .ok w
    | some strongThis =>
      performMedia cur strongThis (.setIsConnected state.isReadyToSendData)
        { w with log := w.log ++ [.observer cur (.stateUpdated (mappedState state))] }
  | .packetReceived packet, w =>
    match w.manager with
    | none => .ok w
    | some strongThis => performMedia cur strongThis (.receivePacket packet) w
  | .signalingData data, w =>
    match w.manager with
    | none => .ok w
    | some _ => .ok { w with log := w.log ++ [.observer cur (.signalingDataEmitted data)] }
  | .packetToSend packet, w =>
    match w.manager with
    | none => .ok w
    | some strongThis => performNetwork cur strongThis (.sendPacket packet) w

/-- The call `thread->Invoke<void>(RTC_FROM_HERE, task)` of `rtc::Thread`: the
closure is run on `thread`, and the call returns to the calling thread (which is
suspended meanwhile) only after the closure has run. Nothing is left in the queue
of posted tasks. -/
def invoke (thread _caller : ThreadPtr) (task : ThreadTask) (w : World) : Except Fault World :=
  runTask thread task w

/-- The call `thread->PostTask(RTC_FROM_HERE, task)` of `rtc::Thread`: the closure
is queued for `thread` and the call returns at once. -/
def postTask (thread : ThreadPtr) (task : ThreadTask) (w : World) : World :=
  { w with posted := w.posted ++ [(thread, task)] }

/-- Lines 59-77: the first callback given to `NetworkManager`, fired on thread
`caller`; `thread` is its capture. -/
def onConnectivityChange (thread caller : ThreadPtr) (state : NetworkManagerState)
    (w : World) : Except Fault World :=
  invoke thread caller (.connectivity state) w

/-- Lines 78-88: the second callback given to `NetworkManager`. -/
def onPacketReceived (thread _caller : ThreadPtr) (packet : Bytes) (w : World) : World :=
  postTask thread (.packetReceived packet) w

/-- Lines 89-97: the third callback given to `NetworkManager`. -/
def onSignalingData (thread _caller : ThreadPtr) (data : Bytes) (w : World) : World :=
  postTask thread (.signalingData data) w

/-- Lines 105-115: the callback given to `MediaManager`. -/
def onPacketToSend (thread _caller : ThreadPtr) (packet : Bytes) (w : World) : World :=
  postTask thread (.packetToSend packet) w

/-- Lines 52-118. Both generators are stored, not run; they and the callbacks they
build capture `_thread`. -/
def start (w : World) : Except Fault World :=
  match w.manager with
  | none => .error .noManager
  | some m =>
    let n := getNetworkThread w.statics
    let networkManager : ThreadLocalObject NetworkGenerator NetworkCall :=
      { thread := n.1,
        generator := { encryptionKey := m._encryptionKey, enableP2P := m._enableP2P,
                       thread := m._thread },
        pending := [] }
    let isOutgoing := m._encryptionKey.isOutgoing
    let g := getMediaThread n.2
    let mediaManager : ThreadLocalObject MediaGenerator MediaCall :=
      { thread := g.1, generator := { isOutgoing := isOutgoing, thread := m._thread },
        pending := [] }
    .ok { w with statics := g.2,
                 manager := some { m with _networkManager := some networkManager,
                                          _mediaManager := some mediaManager },
                 callbacks := some m._thread }

/-- Lines 120-124, called on thread `caller`. -/
def receiveSignalingData (caller : ThreadPtr) (data : Bytes) (w : World) : Except Fault World :=
  match w.manager with
  | none => .error .noManager
  | some m => performNetwork caller m (.receiveSignalingData data) w

/-- Lines 126-130, called on thread `caller`. -/
def setIncomingVideoOutput (caller : ThreadPtr) (sink : VideoSink) (w : World) :
    Except Fault World :=
  match w.manager with
  | none => .error .noManager
  | some m => performMedia caller m (.setIncomingVideoOutput sink) w

/-- Lines 132-136, called on thread `caller`. -/
def setOutgoingVideoOutput (caller : ThreadPtr) (sink : VideoSink) (w : World) :
    Except Fault World :=
  match w.manager with
  | none => .error .noManager
  | some m => performMedia caller m (.setOutgoingVideoOutput sink) w

/-! ## The task model: threads running what was queued for them -/

/-- The oldest posted task whose target is `t`, and the queue without it. -/
def takeTask (t : ThreadPtr) :
    List (ThreadPtr × ThreadTask) → Option (ThreadTask × List (ThreadPtr × ThreadTask))
  | [] => none
  | x :: rest =>
    if x.1 = t then some (x.2, rest)
    else (takeTask t rest).map (fun r => (r.1, x :: r.2))

/-- Thread `t` runs the oldest task posted to it. -/
def runPosted (t : ThreadPtr) (w : World) : Except Fault World :=
  match takeTask t w.posted with
  | none => .error .nothingToRun
  | some r => runTask t r.1 { w with posted := r.2 }

/-- Modelled from the spec: `ThreadLocalObject<NetworkManager>` running a scheduled
closure: the thread of the network cell takes the oldest pending closure and makes
its call on the network actor. -/
def runNetworkClosure (w : World) : Except Fault World :=
  match w.manager with
  | none => .error .nothingToRun
  | some m =>
    match m._networkManager with
    | none => .error .nothingToRun
    | some cell =>
      match cell.pending with
      | [] => .error .nothingToRun
      | c :: rest =>
        .ok { w with manager := some { m with _networkManager := some { cell with pending := rest } },
                     log := w.log ++ [.networkActor cell.thread c] }

/-- Modelled from the spec: `ThreadLocalObject<MediaManager>` running a scheduled
closure: the thread of the media cell takes the oldest pending closure and makes its
call on the media actor. -/
def runMediaClosure (w : World) : Except Fault World :=
  match w.manager with
  | none => .error .nothingToRun
  | some m =>
    match m._mediaManager with
    | none => .error .nothingToRun
    | some cell =>
      match cell.pending with
      | [] => .error .nothingToRun
      | c :: rest =>
        .ok { w with manager := some { m with _mediaManager := some { cell with pending := rest } },
                     log := w.log ++ [.mediaActor cell.thread c] }

/-- Everything that can happen next: a member function of `Manager` is called, an
actor fires one of its callbacks on some thread, or a thread runs what is queued
for it. -/
inductive Action where
  | start
  | destroy (cur : ThreadPtr)
  | onConnectivityChange (caller : ThreadPtr) (state : NetworkManagerState)
  | onPacketReceived (caller : ThreadPtr) (packet : Bytes)
  | onSignalingData (caller : ThreadPtr) (data : Bytes)
  | onPacketToSend (caller : ThreadPtr) (packet : Bytes)
  | runPosted (t : ThreadPtr)
  | runNetworkClosure
  | runMediaClosure
  | receiveSignalingData (caller : ThreadPtr) (data : Bytes)
  | setIncomingVideoOutput (caller : ThreadPtr) (sink : VideoSink)
  | setOutgoingVideoOutput (caller : ThreadPtr) (sink : VideoSink)
deriving DecidableEq, Repr

/-- One action. An actor callback exists only once `start()` has built it. -/
def step : Action → World → Except Fault World
  | .start, w => start w
  | .destroy cur, w => destroy cur w
  | .onConnectivityChange caller state, w =>
    match w.callbacks with
    | none => .error .nothingToRun
    | some thread => onConnectivityChange thread caller state w
  | .onPacketReceived caller packet, w =>
    match w.callbacks with
    | none => .error .nothingToRun
    | some thread => .ok (onPacketReceived thread caller packet w)
  | .onSignalingData caller data, w =>
    match w.callbacks with
    | none => .error .nothingToRun
    | some thread => .ok (onSignalingData thread caller data w)
  | .onPacketToSend caller packet, w =>
    match w.callbacks with
    | none => .error .nothingToRun
    | some thread => .ok (onPacketToSend thread caller packet w)
  | .runPosted t, w => runPosted t w
  | .runNetworkClosure, w => runNetworkClosure w
  | .runMediaClosure, w => runMediaClosure w
  | .receiveSignalingData caller data, w => receiveSignalingData caller data w
  | .setIncomingVideoOutput caller sink, w => setIncomingVideoOutput caller sink w
  | .setOutgoingVideoOutput caller sink, w => setOutgoingVideoOutput caller sink w

/-- A run: the actions one after another, stopping at the first fault. -/
def exec : List Action → World → Except Fault World
  | [], w => .ok w
  | a :: rest, w =>
    match step a w with
    | .ok w' => exec rest w'
    | .error e => .error e

/-- The observer call an effect is, if it is one, with the thread it ran on. -/
def Effect.observerCall : Effect → Option (ThreadPtr × ObserverCall)
  | .observer t c => some (t, c)
  | _ => none

/-- The session state an effect delivers to the state-updated observer, if any. -/
def Effect.stateDelivery : Effect → Option TgVoipState
  | .observer _ (.stateUpdated s) => some s
  | _ => none

/-- The observer calls in a log, oldest first, each with the thread it ran on. -/
def observerCalls (log : List Effect) : List (ThreadPtr × ObserverCall) :=
  log.filterMap Effect.observerCall

/-- The session states delivered to the state-updated observer, oldest first. -/
def stateDeliveries (log : List Effect) : List TgVoipState :=
  log.filterMap Effect.stateDelivery

/-! ## Auxiliary definitions for the statements -/

/-- The statics after the network getter alone has been called. -/
def staticsN : Statics := (getNetworkThread Statics.initial).2

/-- The statics after the media getter alone has been called. -/
def staticsM : Statics := (getMediaThread Statics.initial).2

/-- The statics after the network getter, then the media getter. -/
def staticsNM : Statics := (getMediaThread staticsN).2

/-- The statics after the media getter, then the network getter. -/
def staticsMN : Statics := (getNetworkThread staticsM).2

/-- The statics that getter calls can produce from process start. -/
def Known (s : Statics) : Prop :=
  s = Statics.initial ∨ s = staticsN ∨ s = staticsM ∨ s = staticsNM ∨ s = staticsMN

/-- Number of roles whose getter static is initialised. -/
def initialised (s : Statics) : Nat :=
  (if (getValue .network s).isSome then 1 else 0) + (if (getValue .media s).isSome then 1 else 0)

/-- The session state the source assigns to a readiness flag. -/
def stateOf (ready : Bool) : TgVoipState :=
  match ready with
  | true => .Estabilished
  | false => .Reconnecting

/-- A sample key. -/
def sampleKey : TgVoipEncryptionKey := { value := [1, 2, 3], isOutgoing := true }

/-- A sample owning thread. -/
def sampleOwner : ThreadPtr := .external 0

/-- The manager of `sampleStarted`. -/
def sampleManager : Manager :=
  { _thread := sampleOwner, _encryptionKey := sampleKey, _enableP2P := false,
    _networkManager := some { thread := .created 0,
                              generator := { encryptionKey := sampleKey, enableP2P := false,
                                             thread := sampleOwner },
                              pending := [] },
    _mediaManager := some { thread := .created 1,
                            generator := { isOutgoing := true, thread := sampleOwner },
                            pending := [] } }

/-- A coordinator constructed on `sampleOwner` at process start, not yet started. -/
def sampleFresh : World :=
  { statics := Statics.initial,
    manager := some { _thread := sampleOwner, _encryptionKey := sampleKey, _enableP2P := false,
                      _networkManager := none, _mediaManager := none },
    callbacks := none, posted := [], log := [] }

/-- The world `sampleFresh` after `start()`. -/
def sampleStarted : World :=
  { statics := staticsNM, manager := some sampleManager, callbacks := some sampleOwner,
    posted := [], log := [] }

/-- The world `sampleStarted` after the coordinator was destroyed. -/
def sampleDestroyed : World :=
  { statics := staticsNM, manager := none, callbacks := some sampleOwner,
    posted := [], log := [] }

/-- A sample run: start, a connectivity signal, a signaling callback, the owning
thread running the posted task, a call of `receiveSignalingData`. -/
def sampleActions : List Action :=
  [.start, .onConnectivityChange (.created 0) ⟨true⟩, .onSignalingData (.created 0) [7],
   .runPosted sampleOwner, .receiveSignalingData (.external 7) [1, 2]]

/-- The world reached from `sampleFresh` by `sampleActions`. -/
def sampleAfter : World :=
  { statics := staticsNM,
    manager := some { sampleManager with
      _networkManager := some { thread := .created 0,
                                generator := { encryptionKey := sampleKey, enableP2P := false,
                                               thread := sampleOwner },
                                pending := [.receiveSignalingData [1, 2]] },
      _mediaManager := some { thread := .created 1,
                              generator := { isOutgoing := true, thread := sampleOwner },
                              pending := [.setIsConnected true] } },
    callbacks := some sampleOwner,
    posted := [],
    log := [.observer sampleOwner (.stateUpdated .Estabilished),
            .performMedia sampleOwner (.setIsConnected true),
            .observer sampleOwner (.signalingDataEmitted [7]),
            .performNetwork (.external 7) (.receiveSignalingData [1, 2])] }

/-- Owning-thread discipline with respect to the thread `T`: the coordinator, if
alive, is pinned to `T`; the actor callbacks captured `T`; every posted task is
queued for `T`; every observer call logged so far ran on `T`. -/
structure OwnedBy (T : ThreadPtr) (w : World) : Prop where
  manager : ∀ m, w.manager = some m → m._thread = T
  callbacks : ∀ t, w.callbacks = some t → t = T
  posted : ∀ x ∈ w.posted, x.1 = T
  observers : ∀ x ∈ observerCalls w.log, x.1 = T

/-- Both cell handles of the coordinator, if alive, are set. -/
def HandlesSet (w : World) : Prop :=
  ∀ m, w.manager = some m →
    (∃ nc, m._networkManager = some nc) ∧ (∃ mc, m._mediaManager = some mc)

/-! ## The worker-thread registry -/

theorem known_step (s : Statics) (hs : Known s) (r : Role) : Known (getThread r s).2 := by
  rcases hs with rfl | rfl | rfl | rfl | rfl <;> cases r <;> unfold Known <;> decide

theorem known_stored (s : Statics) (hs : Known s) (r : Role) :
    getValue r (getThread r s).2 = some (getThread r s).1 := by
  rcases hs with rfl | rfl | rfl | rfl | rfl <;> cases r <;> decide

theorem known_stable (s : Statics) (hs : Known s) (r r' : Role) (h : ThreadPtr)
    (hv : getValue r s = some h) : getValue r (getThread r' s).2 = some h := by
  rcases hs with rfl | rfl | rfl | rfl | rfl <;> cases r <;> cases r' <;>
    revert hv <;> revert h <;> decide

theorem known_untouched (s : Statics) (hs : Known s) (r r' : Role) (hne : r' ≠ r)
    (hv : getValue r s = none) : getValue r (getThread r' s).2 = none := by
  rcases hs with rfl | rfl | rfl | rfl | rfl <;> cases r <;> cases r' <;>
    revert hv <;> revert hne <;> decide

theorem known_again (s : Statics) (hs : Known s) (r : Role) (h : ThreadPtr)
    (hv : getValue r s = some h) : getThread r s = (h, s) := by
  rcases hs with rfl | rfl | rfl | rfl | rfl <;> cases r <;>
    revert hv <;> revert h <;> decide

theorem known_setup (s : Statics) (hs : Known s) (r : Role) (h : ThreadPtr)
    (hv : getValue r s = some h) :
    s.events.filter (fun e => decide (e.thread = h)) = r.setup h := by
  rcases hs with rfl | rfl | rfl | rfl | rfl <;> cases r <;>
    revert hv <;> revert h <;> decide

theorem known_total (s : Statics) (hs : Known s) : s.events.length = 3 * initialised s := by
  rcases hs with rfl | rfl | rfl | rfl | rfl <;> decide

theorem known_distinct (s : Statics) (hs : Known s) (r r' : Role) (h : ThreadPtr)
    (hv : getValue r s = some h) (hv' : getValue r' s = some h) : r = r' := by
  rcases hs with rfl | rfl | rfl | rfl | rfl <;> cases r <;> cases r' <;>
    revert hv' <;> revert hv <;> revert h <;> decide

theorem runCalls_known (calls : List Role) :
    ∀ s : Statics, Known s →
      Known (runCalls calls s).2 ∧
      (∀ r h, getValue r s = some h → getValue r (runCalls calls s).2 = some h) ∧
      (∀ x ∈ (runCalls calls s).1, getValue x.1 (runCalls calls s).2 = some x.2) ∧
      (∀ r ∈ calls, ∃ h, getValue r (runCalls calls s).2 = some h) ∧
      (∀ r, r ∉ calls → getValue r s = none → getValue r (runCalls calls s).2 = none) ∧
      (runCalls calls s).1.map Prod.fst = calls := by
  induction calls with
  | nil =>
    intro s hs
    exact ⟨hs, fun _ _ h => h, by simp [runCalls], by simp, fun _ _ h => by simpa [runCalls] using h,
      by simp [runCalls]⟩
  | cons c cs ih =>
    intro s hs
    have hk := known_step s hs c
    obtain ⟨h1, h2, h3, h4, h5, h6⟩ := ih (getThread c s).2 hk
    refine ⟨h1, ?_, ?_, ?_, ?_, ?_⟩
    · intro r h hv
      exact h2 r h (known_stable s hs r c h hv)
    · intro x hx
      simp only [runCalls, List.mem_cons] at hx
      rcases hx with rfl | hx
      · exact h2 c _ (known_stored s hs c)
      · exact h3 x hx
    · intro r hr
      rcases List.mem_cons.mp hr with rfl | hr
      · exact ⟨_, h2 r _ (known_stored s hs r)⟩
      · exact h4 r hr
    · intro r hr hv
      have hne : c ≠ r := fun e => hr (e ▸ List.mem_cons_self _ _)
      have hr' : r ∉ cs := fun e => hr (List.mem_cons_of_mem _ e)
      exact h5 r hr' (known_untouched s hs r c hne hv)
    · simp only [runCalls, List.map_cons, h6]

theorem known_first (s : Statics) (hs : Known s) (r : Role) (hv : getValue r s = none) :
    (getThread r s).2.events = s.events ++ r.setup (getThread r s).1 := by
  rcases hs with rfl | rfl | rfl | rfl | rfl <;> cases r <;> revert hv <;> decide

theorem runCalls_append (a b : List Role) :
    ∀ s : Statics, (runCalls (a ++ b) s).2 = (runCalls b (runCalls a s).2).2 := by
  induction a with
  | nil => intro s; rfl
  | cons c cs ih => intro s; exact ih (getThread c s).2

theorem known_initial : Known Statics.initial := Or.inl rfl

/-- C9: from process start, after any sequence of calls of `getNetworkThread` and
`getMediaThread`: every call for a role returned one and the same handle; the calls
made on that thread object are exactly one creation, one naming and one start, made
by the first call for the role; one more call for the role returns that handle again
and leaves the statics as they are; nothing was done for a role never asked for; and
calls for different roles returned different handles. -/
theorem registry_idempotent (calls : List Role) :
    (∀ r ∈ calls, ∃ h,
        (∀ x ∈ (runCalls calls Statics.initial).1, x.1 = r → x.2 = h) ∧
        (runCalls calls Statics.initial).2.events.filter (fun e => decide (e.thread = h))
          = r.setup h ∧
        getThread r (runCalls calls Statics.initial).2 = (h, (runCalls calls Statics.initial).2)) ∧
    (∀ r, r ∉ calls →
        getValue r (runCalls calls Statics.initial).2 = none ∧
        (runCalls (calls ++ [r]) Statics.initial).2.events
          = (runCalls calls Statics.initial).2.events
            ++ r.setup (getThread r (runCalls calls Statics.initial).2).1) ∧
    (runCalls calls Statics.initial).2.events.length
      = 3 * initialised (runCalls calls Statics.initial).2 ∧
    (∀ x ∈ (runCalls calls Statics.initial).1, ∀ y ∈ (runCalls calls Statics.initial).1,
        x.1 ≠ y.1 → x.2 ≠ y.2) ∧
    (runCalls calls Statics.initial).1.map Prod.fst = calls := by
  obtain ⟨h1, _, h3, h4, h5, h6⟩ := runCalls_known calls Statics.initial known_initial
  refine ⟨?_, ?_, known_total _ h1, ?_, h6⟩
  · intro r hr
    obtain ⟨h, hh⟩ := h4 r hr
    refine ⟨h, ?_, known_setup _ h1 r h hh, known_again _ h1 r h hh⟩
    intro x hx hxr
    have := h3 x hx
    rw [hxr, hh] at this
    exact (Option.some.inj this).symm
  · intro r hr
    have hn := h5 r hr (by cases r <;> rfl)
    refine ⟨hn, ?_⟩
    rw [runCalls_append]
    exact known_first _ h1 r hn
  · intro x hx y hy hne heq
    have hx' := h3 x hx
    have hy' := h3 y hy
    rw [heq] at hx'
    exact hne (known_distinct _ h1 x.1 y.1 y.2 hx' hy')

/-! ## Shared facts about the coordinator -/

theorem observerCalls_append (a b : List Effect) :
    observerCalls (a ++ b) = observerCalls a ++ observerCalls b := by
  simp [observerCalls]

theorem stateDeliveries_append (a b : List Effect) :
    stateDeliveries (a ++ b) = stateDeliveries a ++ stateDeliveries b := by
  simp [stateDeliveries]

theorem mappedState_eq (ready : Bool) : mappedState ⟨ready⟩ = stateOf ready := by
  cases ready <;> rfl

theorem sample_construct :
    construct sampleOwner sampleOwner sampleKey false Statics.initial = .ok sampleFresh := rfl

theorem sample_start : start sampleFresh = .ok sampleStarted := rfl

theorem sample_destroy : destroy sampleOwner sampleStarted = .ok sampleDestroyed := rfl

/-- The closure of lines 60-76 on a live coordinator whose media handle is set. -/
theorem runTask_connectivity (cur : ThreadPtr) (state : NetworkManagerState) (w : World)
    (m : Manager) (mc : ThreadLocalObject MediaGenerator MediaCall)
    (hm : w.manager = some m) (hc : m._mediaManager = some mc) :
    runTask cur (.connectivity state) w =
      .ok { w with
            manager := some { m with
              _mediaManager := some { mc with
                pending := mc.pending ++ [.setIsConnected state.isReadyToSendData] } },
            log := w.log ++ [.observer cur (.stateUpdated (mappedState state)),
                             .performMedia cur (.setIsConnected state.isReadyToSendData)] } := by
  simp [runTask, hm, performMedia, hc, ThreadLocalObject.perform]

/-- The closure of lines 79-87 on a live coordinator whose media handle is set. -/
theorem runTask_packetReceived (cur : ThreadPtr) (packet : Bytes) (w : World)
    (m : Manager) (mc : ThreadLocalObject MediaGenerator MediaCall)
    (hm : w.manager = some m) (hc : m._mediaManager = some mc) :
    runTask cur (.packetReceived packet) w =
      .ok { w with
            manager := some { m with
              _mediaManager := some { mc with pending := mc.pending ++ [.receivePacket packet] } },
            log := w.log ++ [.performMedia cur (.receivePacket packet)] } := by
  simp [runTask, hm, performMedia, hc, ThreadLocalObject.perform]

/-- The closure of lines 106-114 on a live coordinator whose network handle is set. -/
theorem runTask_packetToSend (cur : ThreadPtr) (packet : Bytes) (w : World)
    (m : Manager) (nc : ThreadLocalObject NetworkGenerator NetworkCall)
    (hm : w.manager = some m) (hc : m._networkManager = some nc) :
    runTask cur (.packetToSend packet) w =
      .ok { w with
            manager := some { m with
              _networkManager := some { nc with pending := nc.pending ++ [.sendPacket packet] } },
            log := w.log ++ [.performNetwork cur (.sendPacket packet)] } := by
  simp [runTask, hm, performNetwork, hc, ThreadLocalObject.perform]

/-- Every closure handed to `thread` does nothing once the coordinator is gone. -/
theorem runTask_dead (cur : ThreadPtr) (task : ThreadTask) (w : World)
    (hm : w.manager = none) : runTask cur task w = .ok w := by
  cases task <;> simp [runTask, hm]

/-! ## The connectivity callback -/

/-- C1: on a live coordinator (whatever its key, its P2P flag, its queues and its
earlier log), the on-connectivity-change callback fired with readiness flag `ready`
makes exactly one more observer call, on the owning thread, and the state it passes
is Estabilished when `ready` is true and Reconnecting when it is false. -/
theorem connectivity_state_mapping (w : World) (m : Manager)
    (mc : ThreadLocalObject MediaGenerator MediaCall) (caller : ThreadPtr) (ready : Bool)
    (hm : w.manager = some m) (hc : m._mediaManager = some mc) :
    ∃ w', onConnectivityChange m._thread caller ⟨ready⟩ w = .ok w' ∧
      observerCalls w'.log = observerCalls w.log ++
        [(m._thread, .stateUpdated (if ready = true then .Estabilished else .Reconnecting))] := by
  refine ⟨_, runTask_connectivity m._thread ⟨ready⟩ w m mc hm hc, ?_⟩
  cases ready <;> simp [observerCalls, Effect.observerCall, mappedState]

theorem connectivity_state_mapping_witness :
    ∃ w', onConnectivityChange sampleManager._thread (.created 0) ⟨true⟩ sampleStarted = .ok w' ∧
      observerCalls w'.log = observerCalls sampleStarted.log ++
        [(sampleManager._thread,
          .stateUpdated (if true = true then .Estabilished else .Reconnecting))] :=
  connectivity_state_mapping sampleStarted sampleManager _ (.created 0) true rfl rfl

/-- One firing of the connectivity callback on a live coordinator whose media handle
is set. -/
theorem step_onConnectivityChange (w : World) (m : Manager)
    (mc : ThreadLocalObject MediaGenerator MediaCall) (caller : ThreadPtr) (ready : Bool)
    (hm : w.manager = some m) (hc : m._mediaManager = some mc)
    (hcb : w.callbacks = some m._thread) :
    step (.onConnectivityChange caller ⟨ready⟩) w =
      .ok { statics := w.statics,
            manager := some { _thread := m._thread, _encryptionKey := m._encryptionKey,
                              _enableP2P := m._enableP2P,
                              _networkManager := m._networkManager,
                              _mediaManager := some { thread := mc.thread,
                                                      generator := mc.generator,
                                                      pending := mc.pending ++
                                                        [.setIsConnected ready] } },
            callbacks := w.callbacks,
            posted := w.posted,
            log := w.log ++ [.observer m._thread (.stateUpdated (stateOf ready)),
                             .performMedia m._thread (.setIsConnected ready)] } := by
  have h := runTask_connectivity m._thread ⟨ready⟩ w m mc hm hc
  rw [mappedState_eq] at h
  simp only [step, hcb, onConnectivityChange, invoke, h]

/-- A run of connectivity signals on a live coordinator whose media handle is set. -/
theorem exec_connectivity (sigs : List (ThreadPtr × Bool)) :
    ∀ (w : World) (m : Manager) (mc : ThreadLocalObject MediaGenerator MediaCall),
      w.manager = some m → m._mediaManager = some mc → w.callbacks = some m._thread →
      ∃ w', exec (sigs.map (fun s => Action.onConnectivityChange s.1 ⟨s.2⟩)) w = .ok w' ∧
        observerCalls w'.log = observerCalls w.log ++
          sigs.map (fun s => (m._thread, ObserverCall.stateUpdated (stateOf s.2))) := by
  induction sigs with
  | nil => intro w m mc _ _ _; exact ⟨w, rfl, by simp⟩
  | cons x xs ih =>
    intro w m mc hm hc hcb
    have hs := step_onConnectivityChange w m mc x.1 x.2 hm hc hcb
    obtain ⟨w', hw', hlog⟩ := ih
      { statics := w.statics,
        manager := some { _thread := m._thread, _encryptionKey := m._encryptionKey,
                          _enableP2P := m._enableP2P, _networkManager := m._networkManager,
                          _mediaManager := some { thread := mc.thread, generator := mc.generator,
                                                  pending := mc.pending ++
                                                    [.setIsConnected x.2] } },
        callbacks := w.callbacks, posted := w.posted,
        log := w.log ++ [.observer m._thread (.stateUpdated (stateOf x.2)),
                         .performMedia m._thread (.setIsConnected x.2)] }
      _ _ rfl rfl hcb
    refine ⟨w', ?_, ?_⟩
    · simp only [List.map_cons, exec, hs]
      exact hw'
    · rw [hlog, observerCalls_append]
      simp [observerCalls, Effect.observerCall]

theorem stateDeliveries_of_observerCalls (a b : List Effect) (t : ThreadPtr)
    (l : List TgVoipState)
    (h : observerCalls a = observerCalls b ++ l.map (fun s => (t, ObserverCall.stateUpdated s))) :
    stateDeliveries a = stateDeliveries b ++ l := by
  have key : ∀ log : List Effect, stateDeliveries log =
      (observerCalls log).filterMap
        (fun x => match x.2 with | .stateUpdated s => some s | _ => none) := by
    intro log
    induction log with
    | nil => rfl
    | cons e es ih =>
      have hcons : stateDeliveries (e :: es) =
          (match e.stateDelivery with | some s => [s] | none => []) ++ stateDeliveries es := by
        unfold stateDeliveries
        rw [List.filterMap_cons]
        cases e.stateDelivery <;> rfl
      have hcons' : observerCalls (e :: es) =
          (match e.observerCall with | some s => [s] | none => []) ++ observerCalls es := by
        unfold observerCalls
        rw [List.filterMap_cons]
        cases e.observerCall <;> rfl
      rw [hcons, hcons', ih, List.filterMap_append]
      congr 1
      cases e with
      | observer t c => cases c <;> rfl
      | _ => rfl
  have hl : ∀ l : List TgVoipState,
      (l.map (fun s => (t, ObserverCall.stateUpdated s))).filterMap
        (fun x => match x.2 with | .stateUpdated s => some s | _ => none) = l := by
    intro l
    induction l with
    | nil => rfl
    | cons s ss ih => rw [List.map_cons, List.filterMap_cons]; simp only [ih]
  rw [key a, key b, h, List.filterMap_append, hl]

/-- C3: on a started, live coordinator one firing of on-connectivity-change(ready)
appends to the log exactly the state-updated observer call with the state mapped from
`ready`, followed by the hand-over of `setIsConnected(ready)` to the media cell, whose
pending queue grows by that one closure; the network cell, the posted tasks and the
statics are as before. -/
theorem connectivity_fires_once (w : World) (m : Manager)
    (nc : ThreadLocalObject NetworkGenerator NetworkCall)
    (mc : ThreadLocalObject MediaGenerator MediaCall) (caller : ThreadPtr) (ready : Bool)
    (hm : w.manager = some m) (hn : m._networkManager = some nc)
    (hc : m._mediaManager = some mc) (hcb : w.callbacks = some m._thread) :
    step (.onConnectivityChange caller ⟨ready⟩) w =
      .ok { statics := w.statics,
            manager := some { _thread := m._thread, _encryptionKey := m._encryptionKey,
                              _enableP2P := m._enableP2P,
                              _networkManager := some nc,
                              _mediaManager := some { thread := mc.thread,
                                                      generator := mc.generator,
                                                      pending := mc.pending ++
                                                        [.setIsConnected ready] } },
            callbacks := w.callbacks,
            posted := w.posted,
            log := w.log ++ [.observer m._thread
                               (.stateUpdated (if ready = true then .Estabilished
                                               else .Reconnecting)),
                             .performMedia m._thread (.setIsConnected ready)] } := by
  rw [step_onConnectivityChange w m mc caller ready hm hc hcb, hn]
  cases ready <;> rfl

theorem connectivity_fires_once_witness :
    step (.onConnectivityChange (.created 0) ⟨true⟩) sampleStarted =
      .ok { statics := staticsNM,
            manager := some { sampleManager with
              _mediaManager := some { thread := .created 1,
                                      generator := { isOutgoing := true, thread := sampleOwner },
                                      pending := [.setIsConnected true] } },
            callbacks := some sampleOwner,
            posted := [],
            log := [.observer sampleOwner (.stateUpdated .Estabilished),
                    .performMedia sampleOwner (.setIsConnected true)] } :=
  connectivity_fires_once sampleStarted sampleManager _ _ (.created 0) true rfl rfl rfl rfl

/-- C4: on a live, started coordinator, feeding any list of readiness flags (each
from any thread) one after another to on-connectivity-change makes exactly one
observer call per flag, in the order fed, the i-th passing the state mapped from the
i-th flag; no other observer call is made; so N signals with ready=true in a row give
N deliveries of Estabilished. -/
theorem connectivity_no_dedup (w : World) (m : Manager)
    (mc : ThreadLocalObject MediaGenerator MediaCall)
    (hm : w.manager = some m) (hc : m._mediaManager = some mc)
    (hcb : w.callbacks = some m._thread) :
    (∀ sigs : List (ThreadPtr × Bool),
      ∃ w', exec (sigs.map (fun s => Action.onConnectivityChange s.1 ⟨s.2⟩)) w = .ok w' ∧
        observerCalls w'.log = observerCalls w.log ++
          sigs.map (fun s => (m._thread, ObserverCall.stateUpdated
            (if s.2 = true then .Estabilished else .Reconnecting))) ∧
        stateDeliveries w'.log = stateDeliveries w.log ++
          sigs.map (fun s => if s.2 = true then .Estabilished else .Reconnecting) ∧
        (stateDeliveries w'.log).length = (stateDeliveries w.log).length + sigs.length) ∧
    (∀ (N : Nat) (caller : ThreadPtr),
      ∃ w', exec (List.replicate N (Action.onConnectivityChange caller ⟨true⟩)) w = .ok w' ∧
        stateDeliveries w'.log = stateDeliveries w.log ++ List.replicate N .Estabilished) := by
  have hof : ∀ b : Bool, stateOf b = (if b = true then .Estabilished else .Reconnecting) := by
    intro b; cases b <;> rfl
  have main : ∀ sigs : List (ThreadPtr × Bool),
      ∃ w', exec (sigs.map (fun s => Action.onConnectivityChange s.1 ⟨s.2⟩)) w = .ok w' ∧
        observerCalls w'.log = observerCalls w.log ++
          sigs.map (fun s => (m._thread, ObserverCall.stateUpdated
            (if s.2 = true then .Estabilished else .Reconnecting))) ∧
        stateDeliveries w'.log = stateDeliveries w.log ++
          sigs.map (fun s => if s.2 = true then .Estabilished else .Reconnecting) := by
    intro sigs
    obtain ⟨w', hw', hlog⟩ := exec_connectivity sigs w m mc hm hc hcb
    simp only [hof] at hlog
    refine ⟨w', hw', hlog, ?_⟩
    apply stateDeliveries_of_observerCalls _ _ m._thread
    rw [hlog, List.map_map]
    rfl
  refine ⟨?_, ?_⟩
  · intro sigs
    obtain ⟨w', h1, h2, h3⟩ := main sigs
    exact ⟨w', h1, h2, h3, by rw [h3]; simp⟩
  · intro N caller
    obtain ⟨w', h1, _, h3⟩ := main (List.replicate N (caller, true))
    refine ⟨w', ?_, ?_⟩
    · simpa using h1
    · simpa using h3

theorem connectivity_no_dedup_witness :
    (∀ sigs : List (ThreadPtr × Bool),
      ∃ w', exec (sigs.map (fun s => Action.onConnectivityChange s.1 ⟨s.2⟩)) sampleStarted
          = .ok w' ∧
        observerCalls w'.log = observerCalls sampleStarted.log ++
          sigs.map (fun s => (sampleManager._thread, ObserverCall.stateUpdated
            (if s.2 = true then .Estabilished else .Reconnecting))) ∧
        stateDeliveries w'.log = stateDeliveries sampleStarted.log ++
          sigs.map (fun s => if s.2 = true then .Estabilished else .Reconnecting) ∧
        (stateDeliveries w'.log).length
          = (stateDeliveries sampleStarted.log).length + sigs.length) ∧
    (∀ (N : Nat) (caller : ThreadPtr),
      ∃ w', exec (List.replicate N (Action.onConnectivityChange caller ⟨true⟩)) sampleStarted
          = .ok w' ∧
        stateDeliveries w'.log
          = stateDeliveries sampleStarted.log ++ List.replicate N .Estabilished) :=
  connectivity_no_dedup sampleStarted sampleManager _ rfl rfl rfl

/-! ## Tasks that outlive the coordinator -/

theorem takeTask_mem (t : ThreadPtr) (q : List (ThreadPtr × ThreadTask)) :
    ∀ r, takeTask t q = some r → (t, r.1) ∈ q ∧ ∀ x ∈ r.2, x ∈ q := by
  induction q with
  | nil => intro r h; simp [takeTask] at h
  | cons x xs ih =>
    intro r h
    unfold takeTask at h
    by_cases hx : x.1 = t
    · rw [if_pos hx] at h
      cases h
      refine ⟨?_, fun y hy => List.mem_cons_of_mem _ hy⟩
      rw [← hx]
      exact List.mem_cons_self _ _
    · rw [if_neg hx] at h
      cases hr : takeTask t xs with
      | none => rw [hr] at h; cases h
      | some r' =>
        rw [hr] at h
        cases h
        obtain ⟨h1, h2⟩ := ih r' hr
        refine ⟨List.mem_cons_of_mem _ h1, ?_⟩
        intro y hy
        rcases List.mem_cons.mp hy with rfl | hy
        · exact List.mem_cons_self _ _
        · exact List.mem_cons_of_mem _ (h2 y hy)

theorem takeTask_single (t : ThreadPtr) (task : ThreadTask) :
    takeTask t [(t, task)] = some (task, []) := by
  simp [takeTask]

/-- C2: once the coordinator is destroyed (the weak reference locks to null), each of
the four closures the actor callbacks hand to the owning thread leaves the world as
it is when it runs: the on-connectivity-change callback returns the world unchanged,
and running a task posted by on-packet-received, on-signaling-data or
on-packet-to-send only removes that task from the queue: no observer call, no
closure handed to a cell, nothing else logged. -/
theorem post_destruction_silence (w : World) (hm : w.manager = none) :
    (∀ (cur : ThreadPtr) (task : ThreadTask), runTask cur task w = .ok w) ∧
    (∀ (thread caller : ThreadPtr) (state : NetworkManagerState),
      onConnectivityChange thread caller state w = .ok w) ∧
    (∀ (t : ThreadPtr) (r : ThreadTask × List (ThreadPtr × ThreadTask)),
      takeTask t w.posted = some r → runPosted t w = .ok { w with posted := r.2 }) ∧
    (∀ (thread caller : ThreadPtr) (bytes : Bytes),
      w.posted = [] →
      runPosted thread (onPacketReceived thread caller bytes w) = .ok w ∧
      runPosted thread (onSignalingData thread caller bytes w) = .ok w ∧
      runPosted thread (onPacketToSend thread caller bytes w) = .ok w) := by
  refine ⟨fun cur task => runTask_dead cur task w hm,
    fun thread _ state => runTask_dead thread (.connectivity state) w hm, ?_, ?_⟩
  · intro t r hr
    unfold runPosted
    rw [hr]
    exact runTask_dead t r.1 _ hm
  · intro thread caller bytes hq
    have hw : { w with posted := [] } = w := by
      cases w
      simp only at hq
      subst hq
      rfl
    refine ⟨?_, ?_, ?_⟩ <;>
    · simp only [runPosted, onPacketReceived, onSignalingData, onPacketToSend, postTask, hq,
        List.nil_append, takeTask_single]
      rw [hw]
      exact runTask_dead _ _ w hm

theorem post_destruction_silence_witness :
    (∀ (cur : ThreadPtr) (task : ThreadTask), runTask cur task sampleDestroyed
      = .ok sampleDestroyed) ∧
    (∀ (thread caller : ThreadPtr) (state : NetworkManagerState),
      onConnectivityChange thread caller state sampleDestroyed = .ok sampleDestroyed) ∧
    (∀ (t : ThreadPtr) (r : ThreadTask × List (ThreadPtr × ThreadTask)),
      takeTask t sampleDestroyed.posted = some r →
      runPosted t sampleDestroyed = .ok { sampleDestroyed with posted := r.2 }) ∧
    (∀ (thread caller : ThreadPtr) (bytes : Bytes),
      sampleDestroyed.posted = [] →
      runPosted thread (onPacketReceived thread caller bytes sampleDestroyed)
        = .ok sampleDestroyed ∧
      runPosted thread (onSignalingData thread caller bytes sampleDestroyed)
        = .ok sampleDestroyed ∧
      runPosted thread (onPacketToSend thread caller bytes sampleDestroyed)
        = .ok sampleDestroyed) :=
  post_destruction_silence sampleDestroyed rfl

/-! ## Packets between the two actors -/

/-- C5: on a live, started coordinator, for every packet `p` and whatever is queued:
firing on-packet-received(p) adds one task for the owning thread at the back of the
posted queue, and that task, run on the owning thread, hands exactly one closure
`receivePacket(p)` to the media cell; firing on-packet-to-send(p) adds one task, and
that task hands exactly one closure `sendPacket(p)`, with the same bytes, to the
network cell. From a state with nothing queued, the whole round (network actor emits
`p`, owning thread runs the task, media cell runs the closure, media actor echoes
`p`, owning thread runs the task, network cell runs the closure) logs exactly one
`receivePacket(p)` call on the media actor and one `sendPacket(p)` call on the
network actor with the same bytes, each after its hand-over, and leaves all queues
empty again. -/
theorem packet_round_trip (w : World) (m : Manager)
    (nc : ThreadLocalObject NetworkGenerator NetworkCall)
    (mc : ThreadLocalObject MediaGenerator MediaCall) (c1 c2 : ThreadPtr) (p : Bytes)
    (hm : w.manager = some m) (hn : m._networkManager = some nc)
    (hc : m._mediaManager = some mc) (hcb : w.callbacks = some m._thread) :
    step (.onPacketReceived c1 p) w =
      .ok { w with posted := w.posted ++ [(m._thread, .packetReceived p)] } ∧
    runTask m._thread (.packetReceived p) w =
      .ok { w with
            manager := some { m with
              _mediaManager := some { mc with pending := mc.pending ++ [.receivePacket p] } },
            log := w.log ++ [.performMedia m._thread (.receivePacket p)] } ∧
    step (.onPacketToSend c2 p) w =
      .ok { w with posted := w.posted ++ [(m._thread, .packetToSend p)] } ∧
    runTask m._thread (.packetToSend p) w =
      .ok { w with
            manager := some { m with
              _networkManager := some { nc with pending := nc.pending ++ [.sendPacket p] } },
            log := w.log ++ [.performNetwork m._thread (.sendPacket p)] } ∧
    (w.posted = [] → nc.pending = [] → mc.pending = [] →
      exec [.onPacketReceived c1 p, .runPosted m._thread, .runMediaClosure,
            .onPacketToSend c2 p, .runPosted m._thread, .runNetworkClosure] w =
        .ok { w with log := w.log ++ [.performMedia m._thread (.receivePacket p),
                                      .mediaActor mc.thread (.receivePacket p),
                                      .performNetwork m._thread (.sendPacket p),
                                      .networkActor nc.thread (.sendPacket p)] }) := by
  refine ⟨?_, runTask_packetReceived m._thread p w m mc hm hc, ?_,
    runTask_packetToSend m._thread p w m nc hm hn, ?_⟩
  · simp [step, hcb, onPacketReceived, postTask]
  · simp [step, hcb, onPacketToSend, postTask]
  · intro hq hnp hmp
    obtain ⟨statics, manager, callbacks, posted, log⟩ := w
    obtain ⟨thr, key, p2p, nm, mm⟩ := m
    obtain ⟨nt, ng, npend⟩ := nc
    obtain ⟨mt, mg, mpend⟩ := mc
    simp only at hm hn hc hcb hq hnp hmp
    subst hm hn hc hcb hq hnp hmp
    simp [exec, step, onPacketReceived, onPacketToSend, postTask, runPosted, takeTask, runTask,
      performMedia, performNetwork, ThreadLocalObject.perform, runMediaClosure,
      runNetworkClosure]

theorem packet_round_trip_witness :
    exec [.onPacketReceived (.created 0) [1, 2], .runPosted sampleOwner,
          .runMediaClosure, .onPacketToSend (.created 1) [1, 2],
          .runPosted sampleOwner, .runNetworkClosure] sampleStarted =
      .ok { sampleStarted with
            log := [.performMedia sampleOwner (.receivePacket [1, 2]),
                    .mediaActor (.created 1) (.receivePacket [1, 2]),
                    .performNetwork sampleOwner (.sendPacket [1, 2]),
                    .networkActor (.created 0) (.sendPacket [1, 2])] } :=
  (packet_round_trip sampleStarted sampleManager
    { thread := .created 0,
      generator := { encryptionKey := sampleKey, enableP2P := false, thread := sampleOwner },
      pending := [] }
    { thread := .created 1, generator := { isOutgoing := true, thread := sampleOwner },
      pending := [] }
    (.created 0) (.created 1) [1, 2] rfl rfl rfl rfl).2.2.2.2 rfl rfl rfl

/-- C7 (as stated, refuted): on the started sample coordinator, after the network
actor fires on-packet-received with the packet [1, 2] it is not the case that the
owning thread's queue is as before and the `receivePacket` closure is in the media
cell. -/
theorem packetReceived_direct_refuted :
    ¬ ∃ w', step (.onPacketReceived (.created 0) [1, 2]) sampleStarted = .ok w' ∧
        w'.posted = sampleStarted.posted ∧
        ∃ m' mc', w'.manager = some m' ∧ m'._mediaManager = some mc' ∧
          MediaCall.receivePacket [1, 2] ∈ mc'.pending := by
  rintro ⟨w', hw', hp, -⟩
  have h : step (.onPacketReceived (.created 0) [1, 2]) sampleStarted =
      .ok { sampleStarted with posted := [(sampleOwner, .packetReceived [1, 2])] } := rfl
  rw [h] at hw'
  cases hw'
  revert hp
  decide

/-- C7 (amended): the on-packet-received callback goes through the owning thread.
For every packet, firing it adds exactly one task for the owning thread at the back
of the posted queue and changes nothing else (the media cell included); that task,
run on the owning thread while the coordinator is alive, hands the
`receivePacket(p)` closure to the media cell, at the back of its pending queue. -/
theorem packetReceived_via_owning_thread (w : World) (m : Manager)
    (mc : ThreadLocalObject MediaGenerator MediaCall) (caller : ThreadPtr) (p : Bytes)
    (hm : w.manager = some m) (hc : m._mediaManager = some mc)
    (hcb : w.callbacks = some m._thread) :
    step (.onPacketReceived caller p) w =
      .ok { w with posted := w.posted ++ [(m._thread, .packetReceived p)] } ∧
    runTask m._thread (.packetReceived p)
        { w with posted := w.posted ++ [(m._thread, .packetReceived p)] } =
      .ok { w with
            posted := w.posted ++ [(m._thread, .packetReceived p)],
            manager := some { m with
              _mediaManager := some { mc with pending := mc.pending ++ [.receivePacket p] } },
            log := w.log ++ [.performMedia m._thread (.receivePacket p)] } ∧
    (w.posted = [] →
      exec [.onPacketReceived caller p, .runPosted m._thread] w =
        .ok { w with
              manager := some { m with
                _mediaManager := some { mc with pending := mc.pending ++ [.receivePacket p] } },
              log := w.log ++ [.performMedia m._thread (.receivePacket p)] }) := by
  refine ⟨?_, ?_, ?_⟩
  · simp [step, hcb, onPacketReceived, postTask]
  · exact runTask_packetReceived m._thread p _ m mc hm hc
  · intro hq
    obtain ⟨statics, manager, callbacks, posted, log⟩ := w
    obtain ⟨thr, key, p2p, nm, mm⟩ := m
    simp only at hm hc hcb hq
    subst hm hc hcb hq
    simp [exec, step, onPacketReceived, postTask, runPosted, takeTask, runTask,
      performMedia, ThreadLocalObject.perform]

theorem packetReceived_via_owning_thread_witness :
    step (.onPacketReceived (.created 0) [1, 2]) sampleStarted =
      .ok { sampleStarted with posted := [(sampleOwner, .packetReceived [1, 2])] } ∧
    exec [.onPacketReceived (.created 0) [1, 2], .runPosted sampleOwner] sampleStarted =
      .ok { sampleStarted with
            manager := some { sampleManager with
              _mediaManager := some { thread := .created 1,
                                      generator := { isOutgoing := true, thread := sampleOwner },
                                      pending := [.receivePacket [1, 2]] } },
            log := [.performMedia sampleOwner (.receivePacket [1, 2])] } :=
  ⟨(packetReceived_via_owning_thread sampleStarted sampleManager
      { thread := .created 1, generator := { isOutgoing := true, thread := sampleOwner },
        pending := [] }
      (.created 0) [1, 2] rfl rfl rfl).1,
   (packetReceived_via_owning_thread sampleStarted sampleManager
      { thread := .created 1, generator := { isOutgoing := true, thread := sampleOwner },
        pending := [] }
      (.created 0) [1, 2] rfl rfl rfl).2.2 rfl⟩

/-- C8 (the code at the failing input): on the started sample coordinator, when
on-connectivity-change(true) fired on the network thread returns, no task has been
added to the owning thread's queue, and the observer call and the hand-over to the
media cell have already happened; the on-packet-received callback fired in the same
world returns with its closure only queued and nothing run. -/
theorem connectivity_runs_inside_call :
    (∃ w', step (.onConnectivityChange (.created 0) ⟨true⟩) sampleStarted = .ok w' ∧
      w'.posted = [] ∧
      w'.log = [.observer sampleOwner (.stateUpdated .Estabilished),
                .performMedia sampleOwner (.setIsConnected true)]) ∧
    (∃ w', step (.onPacketReceived (.created 0) [1, 2]) sampleStarted = .ok w' ∧
      w'.posted = [(sampleOwner, .packetReceived [1, 2])] ∧
      w'.log = []) :=
  ⟨⟨_, rfl, rfl, rfl⟩, ⟨_, rfl, rfl, rfl⟩⟩

/-! ## Invariants of the task model -/

theorem performMedia_ok (cur : ThreadPtr) (m : Manager) (c : MediaCall) (w w' : World)
    (h : performMedia cur m c w = .ok w') :
    ∃ mc, m._mediaManager = some mc ∧
      w' = { w with manager := some { m with _mediaManager := some (mc.perform c) },
                    log := w.log ++ [.performMedia cur c] } := by
  unfold performMedia at h
  cases hc : m._mediaManager with
  | none => rw [hc] at h; cases h
  | some mc => rw [hc] at h; cases h; exact ⟨mc, rfl, rfl⟩

theorem performNetwork_ok (cur : ThreadPtr) (m : Manager) (c : NetworkCall) (w w' : World)
    (h : performNetwork cur m c w = .ok w') :
    ∃ nc, m._networkManager = some nc ∧
      w' = { w with manager := some { m with _networkManager := some (nc.perform c) },
                    log := w.log ++ [.performNetwork cur c] } := by
  unfold performNetwork at h
  cases hc : m._networkManager with
  | none => rw [hc] at h; cases h
  | some nc => rw [hc] at h; cases h; exact ⟨nc, rfl, rfl⟩

theorem observerCalls_snoc_other (log : List Effect) (e : Effect)
    (he : e.observerCall = none) : observerCalls (log ++ [e]) = observerCalls log := by
  simp [observerCalls, he]

theorem observerCalls_snoc_observer (log : List Effect) (t : ThreadPtr) (c : ObserverCall) :
    observerCalls (log ++ [.observer t c]) = observerCalls log ++ [(t, c)] := by
  simp [observerCalls, Effect.observerCall]

theorem ownedBy_performMedia (T cur : ThreadPtr) (m : Manager) (c : MediaCall) (w w' : World)
    (hw : OwnedBy T w) (hm : w.manager = some m) (h : performMedia cur m c w = .ok w') :
    OwnedBy T w' := by
  obtain ⟨mc, _, rfl⟩ := performMedia_ok cur m c w w' h
  refine ⟨?_, hw.callbacks, hw.posted, ?_⟩
  · intro m' hm'
    cases hm'
    exact hw.manager m hm
  · simp only [observerCalls_snoc_other _ _ (rfl : (Effect.performMedia cur c).observerCall = none)]
    exact hw.observers

theorem ownedBy_performNetwork (T cur : ThreadPtr) (m : Manager) (c : NetworkCall)
    (w w' : World) (hw : OwnedBy T w) (hm : w.manager = some m)
    (h : performNetwork cur m c w = .ok w') : OwnedBy T w' := by
  obtain ⟨nc, _, rfl⟩ := performNetwork_ok cur m c w w' h
  refine ⟨?_, hw.callbacks, hw.posted, ?_⟩
  · intro m' hm'
    cases hm'
    exact hw.manager m hm
  · simp only [observerCalls_snoc_other _ _
      (rfl : (Effect.performNetwork cur c).observerCall = none)]
    exact hw.observers

theorem ownedBy_observer (T : ThreadPtr) (c : ObserverCall) (w : World) (hw : OwnedBy T w) :
    OwnedBy T { w with log := w.log ++ [.observer T c] } := by
  refine ⟨hw.manager, hw.callbacks, hw.posted, ?_⟩
  intro x hx
  simp only [observerCalls_snoc_observer, List.mem_append, List.mem_singleton] at hx
  rcases hx with hx | rfl
  · exact hw.observers x hx
  · rfl

theorem ownedBy_runTask (T : ThreadPtr) (task : ThreadTask) (w w' : World)
    (hw : OwnedBy T w) (h : runTask T task w = .ok w') : OwnedBy T w' := by
  cases task with
  | connectivity state =>
    simp only [runTask] at h
    split at h
    · cases h; exact hw
    · rename_i m hm
      exact ownedBy_performMedia T T m _ _ w' (ownedBy_observer T _ w hw) hm h
  | packetReceived packet =>
    simp only [runTask] at h
    split at h
    · cases h; exact hw
    · rename_i m hm
      exact ownedBy_performMedia T T m _ w w' hw hm h
  | signalingData data =>
    simp only [runTask] at h
    split at h
    · cases h; exact hw
    · cases h
      exact ownedBy_observer T _ w hw
  | packetToSend packet =>
    simp only [runTask] at h
    split at h
    · cases h; exact hw
    · rename_i m hm
      exact ownedBy_performNetwork T T m _ w w' hw hm h

theorem ownedBy_postTask (T : ThreadPtr) (task : ThreadTask) (w : World) (hw : OwnedBy T w) :
    OwnedBy T (postTask T task w) := by
  refine ⟨hw.manager, hw.callbacks, ?_, hw.observers⟩
  intro x hx
  simp only [postTask, List.mem_append, List.mem_singleton] at hx
  rcases hx with hx | rfl
  · exact hw.posted x hx
  · rfl

theorem ownedBy_step (T : ThreadPtr) (a : Action) (w w' : World)
    (hw : OwnedBy T w) (h : step a w = .ok w') : OwnedBy T w' := by
  cases a with
  | start =>
    simp only [step, start] at h
    split at h
    · cases h
    · rename_i m hm
      cases h
      refine ⟨?_, ?_, hw.posted, hw.observers⟩
      · intro m' hm'; cases hm'; exact hw.manager m hm
      · intro t ht; cases ht; exact hw.manager m hm
  | destroy cur =>
    simp only [step, destroy] at h
    split at h
    · cases h
    · split at h
      · cases h
        refine ⟨?_, hw.callbacks, hw.posted, hw.observers⟩
        intro m' hm'
        cases hm'
      · cases h
  | onConnectivityChange caller state =>
    simp only [step] at h
    split at h
    · cases h
    · rename_i t hc
      have ht := hw.callbacks t hc
      subst ht
      exact ownedBy_runTask t (.connectivity state) w w' hw h
  | onPacketReceived caller packet =>
    simp only [step] at h
    split at h
    · cases h
    · rename_i t hc
      have ht := hw.callbacks t hc
      subst ht
      cases h
      exact ownedBy_postTask t _ w hw
  | onSignalingData caller data =>
    simp only [step] at h
    split at h
    · cases h
    · rename_i t hc
      have ht := hw.callbacks t hc
      subst ht
      cases h
      exact ownedBy_postTask t _ w hw
  | onPacketToSend caller packet =>
    simp only [step] at h
    split at h
    · cases h
    · rename_i t hc
      have ht := hw.callbacks t hc
      subst ht
      cases h
      exact ownedBy_postTask t _ w hw
  | runPosted t =>
    simp only [step, runPosted] at h
    split at h
    · cases h
    · rename_i r hr
      obtain ⟨h1, h2⟩ := takeTask_mem t w.posted r hr
      have ht : t = T := hw.posted _ h1
      subst ht
      refine ownedBy_runTask t r.1 _ w' ?_ h
      exact ⟨hw.manager, hw.callbacks, fun x hx => hw.posted x (h2 x hx), hw.observers⟩
  | runNetworkClosure =>
    simp only [step, runNetworkClosure] at h
    split at h
    · cases h
    · rename_i m hm
      split at h
      · cases h
      · rename_i cell hn
        split at h
        · cases h
        · rename_i c rest hp
          cases h
          refine ⟨?_, hw.callbacks, hw.posted, ?_⟩
          · intro m' hm'; cases hm'; exact hw.manager m hm
          · simp only [observerCalls_snoc_other _ _
              (rfl : (Effect.networkActor cell.thread c).observerCall = none)]
            exact hw.observers
  | runMediaClosure =>
    simp only [step, runMediaClosure] at h
    split at h
    · cases h
    · rename_i m hm
      split at h
      · cases h
      · rename_i cell hn
        split at h
        · cases h
        · rename_i c rest hp
          cases h
          refine ⟨?_, hw.callbacks, hw.posted, ?_⟩
          · intro m' hm'; cases hm'; exact hw.manager m hm
          · simp only [observerCalls_snoc_other _ _
              (rfl : (Effect.mediaActor cell.thread c).observerCall = none)]
            exact hw.observers
  | receiveSignalingData caller data =>
    simp only [step, receiveSignalingData] at h
    split at h
    · cases h
    · rename_i m hm
      exact ownedBy_performNetwork T caller m _ w w' hw hm h
  | setIncomingVideoOutput caller sink =>
    simp only [step, setIncomingVideoOutput] at h
    split at h
    · cases h
    · rename_i m hm
      exact ownedBy_performMedia T caller m _ w w' hw hm h
  | setOutgoingVideoOutput caller sink =>
    simp only [step, setOutgoingVideoOutput] at h
    split at h
    · cases h
    · rename_i m hm
      exact ownedBy_performMedia T caller m _ w w' hw hm h

theorem ownedBy_exec (T : ThreadPtr) (acts : List Action) :
    ∀ w w' : World, OwnedBy T w → exec acts w = .ok w' → OwnedBy T w' := by
  induction acts with
  | nil => intro w w' hw h; cases h; exact hw
  | cons a rest ih =>
    intro w w' hw h
    simp only [exec] at h
    cases hs : step a w with
    | error e => rw [hs] at h; cases h
    | ok w1 =>
      rw [hs] at h
      exact ih w1 w' (ownedBy_step T a w w1 hw hs) h

theorem ownedBy_construct (cur thread : ThreadPtr) (key : TgVoipEncryptionKey) (p2p : Bool)
    (statics : Statics) (w : World) (h : construct cur thread key p2p statics = .ok w) :
    OwnedBy thread w := by
  unfold construct at h
  by_cases hc : cur = thread
  · rw [if_pos hc] at h
    cases h
    refine ⟨?_, ?_, ?_, ?_⟩
    · intro m hm; cases hm; rfl
    · intro t ht; cases ht
    · intro x hx; cases hx
    · intro x hx; cases hx
  · rw [if_neg hc] at h; cases h

theorem mem_observerCalls (log : List Effect) (t : ThreadPtr) (c : ObserverCall)
    (h : Effect.observer t c ∈ log) : (t, c) ∈ observerCalls log := by
  unfold observerCalls
  rw [List.mem_filterMap]
  exact ⟨_, h, rfl⟩

theorem handlesSet_of_manager (w1 w2 : World) (h : w1.manager = w2.manager)
    (hw : HandlesSet w2) : HandlesSet w1 := by
  intro m hm
  exact hw m (h ▸ hm)

theorem performMedia_set (cur : ThreadPtr) (m : Manager) (c : MediaCall) (w : World)
    (hn : ∃ nc, m._networkManager = some nc) (hc : ∃ mc, m._mediaManager = some mc) :
    ∃ w', performMedia cur m c w = .ok w' ∧ HandlesSet w' := by
  obtain ⟨mc, hmc⟩ := hc
  refine ⟨_, by simp only [performMedia, hmc]; rfl, ?_⟩
  intro m' hm'
  cases hm'
  exact ⟨hn, ⟨_, rfl⟩⟩

theorem performNetwork_set (cur : ThreadPtr) (m : Manager) (c : NetworkCall) (w : World)
    (hn : ∃ nc, m._networkManager = some nc) (hc : ∃ mc, m._mediaManager = some mc) :
    ∃ w', performNetwork cur m c w = .ok w' ∧ HandlesSet w' := by
  obtain ⟨nc, hnc⟩ := hn
  refine ⟨_, by simp only [performNetwork, hnc]; rfl, ?_⟩
  intro m' hm'
  cases hm'
  exact ⟨⟨_, rfl⟩, hc⟩

theorem runTask_set (cur : ThreadPtr) (task : ThreadTask) (w : World) (hw : HandlesSet w) :
    ∃ w', runTask cur task w = .ok w' ∧ HandlesSet w' := by
  cases hm : w.manager with
  | none => exact ⟨w, runTask_dead cur task w hm, hw⟩
  | some m =>
    obtain ⟨hn, hc⟩ := hw m hm
    cases task with
    | connectivity state =>
      simp only [runTask, hm]
      exact performMedia_set cur m _ _ hn hc
    | packetReceived packet =>
      simp only [runTask, hm]
      exact performMedia_set cur m _ _ hn hc
    | signalingData data =>
      simp only [runTask, hm]
      refine ⟨_, rfl, ?_⟩
      intro m' hm'
      cases hm'
      exact ⟨hn, hc⟩
    | packetToSend packet =>
      simp only [runTask, hm]
      exact performNetwork_set cur m _ _ hn hc

theorem handlesSet_start (w w' : World) (h : start w = .ok w') : HandlesSet w' := by
  simp only [start] at h
  split at h
  · cases h
  · cases h
    intro m' hm'
    cases hm'
    exact ⟨⟨_, rfl⟩, ⟨_, rfl⟩⟩

/-- With both handles set, an action either completes and keeps them set, or stops
for a reason other than a null cell handle. -/
theorem step_set (a : Action) (w : World) (hw : HandlesSet w) :
    (∃ w', step a w = .ok w' ∧ HandlesSet w') ∨
    (∃ e, step a w = .error e ∧ e ≠ Fault.nullCell) := by
  cases a with
  | start =>
    cases hs : start w with
    | ok w' => exact Or.inl ⟨w', hs, handlesSet_start w w' hs⟩
    | error e =>
      refine Or.inr ⟨e, hs, ?_⟩
      simp only [start] at hs
      split at hs
      · cases hs; decide
      · cases hs
  | destroy cur =>
    simp only [step, destroy]
    split
    · exact Or.inr ⟨_, rfl, by decide⟩
    · split
      · refine Or.inl ⟨_, rfl, ?_⟩
        intro m' hm'
        cases hm'
      · exact Or.inr ⟨_, rfl, by decide⟩
  | onConnectivityChange caller state =>
    simp only [step]
    split
    · exact Or.inr ⟨_, rfl, by decide⟩
    · rename_i thread _
      exact Or.inl (runTask_set thread (.connectivity state) w hw)
  | onPacketReceived caller packet =>
    simp only [step]
    split
    · exact Or.inr ⟨_, rfl, by decide⟩
    · exact Or.inl ⟨_, rfl, handlesSet_of_manager _ w rfl hw⟩
  | onSignalingData caller data =>
    simp only [step]
    split
    · exact Or.inr ⟨_, rfl, by decide⟩
    · exact Or.inl ⟨_, rfl, handlesSet_of_manager _ w rfl hw⟩
  | onPacketToSend caller packet =>
    simp only [step]
    split
    · exact Or.inr ⟨_, rfl, by decide⟩
    · exact Or.inl ⟨_, rfl, handlesSet_of_manager _ w rfl hw⟩
  | runPosted t =>
    simp only [step, runPosted]
    split
    · exact Or.inr ⟨_, rfl, by decide⟩
    · exact Or.inl (runTask_set _ _ _ (handlesSet_of_manager _ w rfl hw))
  | runNetworkClosure =>
    simp only [step, runNetworkClosure]
    split
    · exact Or.inr ⟨_, rfl, by decide⟩
    · rename_i m hm
      split
      · exact Or.inr ⟨_, rfl, by decide⟩
      · split
        · exact Or.inr ⟨_, rfl, by decide⟩
        · refine Or.inl ⟨_, rfl, ?_⟩
          intro m' hm'
          cases hm'
          exact ⟨⟨_, rfl⟩, (hw m hm).2⟩
  | runMediaClosure =>
    simp only [step, runMediaClosure]
    split
    · exact Or.inr ⟨_, rfl, by decide⟩
    · rename_i m hm
      split
      · exact Or.inr ⟨_, rfl, by decide⟩
      · split
        · exact Or.inr ⟨_, rfl, by decide⟩
        · refine Or.inl ⟨_, rfl, ?_⟩
          intro m' hm'
          cases hm'
          exact ⟨(hw m hm).1, ⟨_, rfl⟩⟩
  | receiveSignalingData caller data =>
    simp only [step, receiveSignalingData]
    split
    · exact Or.inr ⟨_, rfl, by decide⟩
    · rename_i m hm
      exact Or.inl (performNetwork_set caller m _ w (hw m hm).1 (hw m hm).2)
  | setIncomingVideoOutput caller sink =>
    simp only [step, setIncomingVideoOutput]
    split
    · exact Or.inr ⟨_, rfl, by decide⟩
    · rename_i m hm
      exact Or.inl (performMedia_set caller m _ w (hw m hm).1 (hw m hm).2)
  | setOutgoingVideoOutput caller sink =>
    simp only [step, setOutgoingVideoOutput]
    split
    · exact Or.inr ⟨_, rfl, by decide⟩
    · rename_i m hm
      exact Or.inl (performMedia_set caller m _ w (hw m hm).1 (hw m hm).2)

theorem handlesSet_exec (acts : List Action) :
    ∀ w w' : World, HandlesSet w → exec acts w = .ok w' → HandlesSet w' := by
  induction acts with
  | nil => intro w w' hw h; cases h; exact hw
  | cons a rest ih =>
    intro w w' hw h
    simp only [exec] at h
    rcases step_set a w hw with ⟨w1, hs, hw1⟩ | ⟨e, hs, _⟩
    · rw [hs] at h
      exact ih w1 w' hw1 h
    · rw [hs] at h
      cases h

/-! ## Where the observers run, and the cell handles -/

/-- C6: in every state the task model reaches from a freshly constructed coordinator
(by any calls of its member functions, any actor callbacks fired on any threads, and
any threads running what is queued for them), every observer call in the log,
state-updated or signaling-data-emitted, ran on the thread passed to the
constructor. -/
theorem observers_on_owning_thread (cur thread : ThreadPtr) (key : TgVoipEncryptionKey)
    (p2p : Bool) (statics : Statics) (acts : List Action) (w0 w : World)
    (h0 : construct cur thread key p2p statics = .ok w0) (h : exec acts w0 = .ok w) :
    ∀ (t : ThreadPtr) (c : ObserverCall), Effect.observer t c ∈ w.log → t = thread := by
  intro t c hmem
  have hinv := ownedBy_exec thread acts w0 w (ownedBy_construct cur thread key p2p statics w0 h0) h
  exact hinv.observers (t, c) (mem_observerCalls w.log t c hmem)

theorem observers_on_owning_thread_witness :
    construct sampleOwner sampleOwner sampleKey false Statics.initial = .ok sampleFresh ∧
    exec sampleActions sampleFresh = .ok sampleAfter ∧
    ∀ (t : ThreadPtr) (c : ObserverCall), Effect.observer t c ∈ sampleAfter.log →
      t = sampleOwner :=
  ⟨rfl, rfl,
   observers_on_owning_thread sampleOwner sampleOwner sampleKey false Statics.initial
    sampleActions sampleFresh sampleAfter rfl rfl⟩

/-- C10: in every state reached after `start()` has completed, the coordinator, while
alive, has both cell handles set; no action stops on a null cell handle and no
closure handed to the owning thread does; on the live coordinator
`receiveSignalingData`, `setIncomingVideoOutput`, `setOutgoingVideoOutput` and every
such closure complete. Before `start()` this fails: on a freshly constructed
coordinator both handles are null and each of the three forwarding functions stops on
the null handle. -/
theorem handles_present_after_start (w0 w1 w : World) (acts : List Action)
    (h0 : start w0 = .ok w1) (h : exec acts w1 = .ok w) :
    (∀ m, w.manager = some m →
      (∃ nc, m._networkManager = some nc) ∧ (∃ mc, m._mediaManager = some mc)) ∧
    (∀ a : Action, step a w ≠ .error .nullCell) ∧
    (∀ (cur : ThreadPtr) (task : ThreadTask), ∃ w', runTask cur task w = .ok w') ∧
    (∀ m, w.manager = some m → ∀ (caller : ThreadPtr) (data : Bytes) (sink : VideoSink),
      (∃ w', receiveSignalingData caller data w = .ok w') ∧
      (∃ w', setIncomingVideoOutput caller sink w = .ok w') ∧
      (∃ w', setOutgoingVideoOutput caller sink w = .ok w')) ∧
    (∀ (cur thread : ThreadPtr) (key : TgVoipEncryptionKey) (p2p : Bool) (statics : Statics)
        (wf : World), construct cur thread key p2p statics = .ok wf →
      (∃ m, wf.manager = some m ∧ m._networkManager = none ∧ m._mediaManager = none) ∧
      ∀ (caller : ThreadPtr) (data : Bytes) (sink : VideoSink),
        receiveSignalingData caller data wf = .error .nullCell ∧
        setIncomingVideoOutput caller sink wf = .error .nullCell ∧
        setOutgoingVideoOutput caller sink wf = .error .nullCell) := by
  have hw : HandlesSet w := handlesSet_exec acts w1 w (handlesSet_start w0 w1 h0) h
  refine ⟨hw, ?_, ?_, ?_, ?_⟩
  · intro a ha
    rcases step_set a w hw with ⟨w', hs, _⟩ | ⟨e, hs, he⟩
    · rw [hs] at ha; cases ha
    · rw [hs] at ha; cases ha; exact he rfl
  · intro cur task
    obtain ⟨w', hw', _⟩ := runTask_set cur task w hw
    exact ⟨w', hw'⟩
  · intro m hm caller data sink
    obtain ⟨hn, hc⟩ := hw m hm
    refine ⟨?_, ?_, ?_⟩
    · obtain ⟨w', hw', _⟩ := performNetwork_set caller m (.receiveSignalingData data) w hn hc
      exact ⟨w', by simp only [receiveSignalingData, hm]; exact hw'⟩
    · obtain ⟨w', hw', _⟩ := performMedia_set caller m (.setIncomingVideoOutput sink) w hn hc
      exact ⟨w', by simp only [setIncomingVideoOutput, hm]; exact hw'⟩
    · obtain ⟨w', hw', _⟩ := performMedia_set caller m (.setOutgoingVideoOutput sink) w hn hc
      exact ⟨w', by simp only [setOutgoingVideoOutput, hm]; exact hw'⟩
  · intro cur thread key p2p statics wf hwf
    unfold construct at hwf
    by_cases hcur : cur = thread
    · rw [if_pos hcur] at hwf
      cases hwf
      exact ⟨⟨_, rfl, rfl, rfl⟩, fun _ _ _ => ⟨rfl, rfl, rfl⟩⟩
    · rw [if_neg hcur] at hwf
      cases hwf

theorem handles_present_after_start_witness :
    ((∀ m, sampleAfter.manager = some m →
      (∃ nc, m._networkManager = some nc) ∧ (∃ mc, m._mediaManager = some mc)) ∧
     (∀ a : Action, step a sampleAfter ≠ .error .nullCell)) ∧
    receiveSignalingData (.external 7) [1, 2] sampleFresh = .error .nullCell :=
  ⟨⟨(handles_present_after_start sampleFresh sampleStarted sampleAfter sampleActions.tail
        rfl rfl).1,
    (handles_present_after_start sampleFresh sampleStarted sampleAfter sampleActions.tail
        rfl rfl).2.1⟩,
   rfl⟩

end TgVoipWebrtc
